import Mathlib

/-!
# Verification of the content-ingestion pipeline

A shallow embedding, in Lean 4, of the core logic of the news/video ingestion
schedulers (`scripts/alternative-scheduler.js`, the alternative video scheduler
and the breaking-news service): content-safety classification, trust/approval
decision, configuration fallback resolution, retention/cleanup planning, the
adaptive scheduling interval, and the re-entrancy discipline of the cycle loops.

JavaScript strings are modelled by `String`; `toLowerCase` is modelled on the
ASCII range (the keyword lists and match logic in the source are ASCII).
`includes` / `startsWith` / `endsWith` are modelled on the underlying
character lists.  HTTP fetches that the source wraps in `try`/`catch` are
modelled by `Option`-valued inputs: `none` is a failed request, `some v` a
successful response with payload `v`.  Timestamps are modelled as natural
numbers (milliseconds), matching the numeric comparison of JavaScript dates.
-/

/-- ASCII lower-casing of one character, as `String.prototype.toLowerCase`
acts on the ASCII range used by the source's keyword lists. -/
def lowerChar (c : Char) : Char :=
  if 'A' ≤ c ∧ c ≤ 'Z' then Char.ofNat (c.toNat + 32) else c

/-- ASCII model of JavaScript `toLowerCase()`. -/
def jsToLower (s : String) : String :=
  String.mk (s.data.map lowerChar)

/-- `pat` occurs as a contiguous sublist of `s` (JavaScript `includes` on
character lists). -/
def charsContain (pat : List Char) : List Char → Bool
  | [] => pat.isEmpty
  | c :: rest => pat.isPrefixOf (c :: rest) || charsContain pat rest

/-- JavaScript `haystack.includes(needle)`. -/
def jsIncludes (haystack needle : String) : Bool :=
  charsContain needle.data haystack.data

/-- JavaScript `s.startsWith(p)`. -/
def jsStartsWith (s p : String) : Bool :=
  p.data.isPrefixOf s.data

/-- JavaScript `s.endsWith(p)`. -/
def jsEndsWith (s p : String) : Bool :=
  p.data.isSuffixOf s.data

/-! ## Content Safety Classifier

From `isContentFiltered` (alternative video scheduler): a banned-keyword rule
as served by the `banned-keywords-videos` collection, and a banned-channel
rule as served by `banned-channels-videos`. -/

/-- A banned-keyword rule (`banned-keywords-videos` record): fields read by
`isContentFiltered` are `keyword`, `match_type`, `applies_to`, `active`.
Absent `match_type` / `applies_to` in the source (`|| 'Contains'`,
`|| 'All'`) behave exactly like an unrecognised string, which the embedding
covers through the catch-all branches below. -/
structure BannedKeyword where
  keyword : String
  match_type : String
  applies_to : String
  active : Bool
deriving DecidableEq, Repr

/-- A banned-channel rule (`banned-channels-videos` record). -/
structure BannedChannel where
  channel_id : String
  ban_level : String
  active : Bool
deriving DecidableEq, Repr

/-- One keyword rule applied to a title/description pair, exactly as the loop
body of `isContentFiltered`: scope the text by `applies_to`
(`Title` / `Description` / anything else = both, joined by a space), lower-case
it, and apply the `match_type` strategy (`Exact`, `Contains`, `Starts With`,
`Ends With`, default = contains) against the lower-cased keyword. -/
def keywordRuleMatches (k : BannedKeyword) (title description : String) : Bool :=
  let keyword := jsToLower k.keyword
  let contentText := jsToLower (title ++ " " ++ description)
  let textToCheck :=
    if k.applies_to == "Title" then jsToLower title
    else if k.applies_to == "Description" then jsToLower description
    else contentText
  match k.match_type with
  | "Exact" => textToCheck == keyword
  | "Contains" => jsIncludes textToCheck keyword
  | "Starts With" => jsStartsWith textToCheck keyword
  | "Ends With" => jsEndsWith textToCheck keyword
  | _ => jsIncludes textToCheck keyword

/-- The banned-channel gate of `isContentFiltered`: the fetch filters the
store on `channel_id` and `active`, and the code then blocks iff the result
is non-empty and its first record's `ban_level` is not `"Under Review"`. -/
def channelBlocked (allChannels : List BannedChannel) (channelId : String) : Bool :=
  match allChannels.filter (fun c => c.channel_id == channelId && c.active) with
  | [] => false
  | c :: _ => c.ban_level != "Under Review"

/-- `isContentFiltered(title, description, channelId)` of the video scheduler.
`channelFetch` / `keywordFetch` model the two `axios.get` calls: `none` means
the request threw, in which case the surrounding `catch` returns `false`
("default to safe").  A successful keyword fetch carries the store's rules;
the request itself filters on `active`, which the embedding applies to the
carried list. -/
def isContentFiltered (channelFetch : Option (List BannedChannel))
    (keywordFetch : Option (List BannedKeyword))
    (title description channelId : String) : Bool :=
  match channelFetch with
  | none => false
  | some allChannels =>
    if channelBlocked allChannels channelId then true
    else
      match keywordFetch with
      | none => false
      | some allKeywords =>
        (allKeywords.filter (fun k => k.active)).any
          (fun k => keywordRuleMatches k title description)

/-! ## `isContentSafe` (video scheduler) and its built-in fallback rules -/

/-- A `content-safety-keywords` record, with the capitalised field names the
video scheduler's built-in list and `isContentSafe` use. -/
structure SafetyKeyword where
  Keyword : String
  MatchType : String
  IsActive : Bool
deriving DecidableEq, Repr

/-- The video scheduler's built-in content safety keywords
(`builtInBannedKeywords` in the constructor). -/
def builtInBannedKeywords : List SafetyKeyword :=
  [ { Keyword := "scam", MatchType := "contains", IsActive := true },
    { Keyword := "fake", MatchType := "contains", IsActive := true },
    { Keyword := "illegal", MatchType := "contains", IsActive := true },
    { Keyword := "dangerous", MatchType := "contains", IsActive := true },
    { Keyword := "adult", MatchType := "contains", IsActive := true },
    { Keyword := "gambling", MatchType := "contains", IsActive := true } ]

/-- `isContentSafe(video, topic)` of the video scheduler, on the title and
description of the video.  `keywordsFetch = none` models a failed
`content-safety-keywords` request (the `catch` leaves the list empty); a
successful fetch is filtered on `IsActive`.  If the resulting list is empty
the built-in list (filtered on `IsActive`) is used.  A rule blocks only under
`MatchType === 'contains'`, when the lower-cased title or description
includes the lower-cased keyword.  Returns `true` when the content is safe. -/
def isContentSafe (keywordsFetch : Option (List SafetyKeyword))
    (title description : String) : Bool :=
  let t := jsToLower title
  let d := jsToLower description
  let fetched : List SafetyKeyword :=
    match keywordsFetch with
    | some ks => ks.filter (fun (k : SafetyKeyword) => k.IsActive)
    | none => []
  let bannedKeywords :=
    if fetched.isEmpty then builtInBannedKeywords.filter (fun k => k.IsActive)
    else fetched
  !(bannedKeywords.any (fun k =>
      k.MatchType == "contains" &&
        (jsIncludes t (jsToLower k.Keyword) || jsIncludes d (jsToLower k.Keyword))))

/-- The composed per-item safety gate of `fetchRealYouTubeVideos`: a video is
dropped (blocked) iff `isContentSafe` rejects it or `isContentFiltered`
matches it. -/
def videoContentBlocked (safeFetch : Option (List SafetyKeyword))
    (channelFetch : Option (List BannedChannel))
    (keywordFetch : Option (List BannedKeyword))
    (title description channelId : String) : Bool :=
  !(isContentSafe safeFetch title description) ||
    isContentFiltered channelFetch keywordFetch title description channelId

example : jsToLower "Buy NOW, Scam" = "buy now, scam" := by decide
example : jsIncludes "buy now, limited time scam offer" "scam" = true := by decide
example : isContentSafe none "Buy now, limited time scam offer" "" = false := by decide
example : isContentFiltered (some []) (some [⟨"scam", "Contains", "All", true⟩])
    "Buy now, limited time scam offer" "" "c" = true := by decide

/-- C1: with no banned-channel record in play, `isContentFiltered` blocks an
item iff at least one active rule's scoped, lower-cased text matches the
rule's pattern under its configured strategy; with an all-inactive (or empty)
rule set it always allows; and the scenario-B candidate, whose title contains
`scam`, is blocked under a `contains` rule for `scam`. -/
theorem classify_block_iff_active_rule_match
    (rules : List BannedKeyword) (title description channelId : String) :
    (isContentFiltered (some []) (some rules) title description channelId = true ↔
      ∃ k ∈ rules, k.active = true ∧ keywordRuleMatches k title description = true)
    ∧ ((∀ k ∈ rules, k.active = false) →
        isContentFiltered (some []) (some rules) title description channelId = false)
    ∧ isContentFiltered (some [])
        (some [{ keyword := "scam", match_type := "Contains",
                 applies_to := "All", active := true }])
        "Buy now, limited time scam offer" "" "any-channel" = true := by
  have hch : channelBlocked [] channelId = false := rfl
  refine ⟨?_, ?_, by decide⟩
  · simp [isContentFiltered, hch, List.any_eq_true, List.mem_filter, and_assoc]
  · intro hall
    simp only [isContentFiltered, hch, if_false, Bool.false_eq_true]
    rw [List.any_eq_false]
    intro k hk
    rw [List.mem_filter] at hk
    rw [hall k hk.1] at hk
    exact absurd hk.2 (by simp)

/-- Witness for `classify_block_iff_active_rule_match`: a rule set whose only
rule is inactive yields `Allow`. -/
theorem classify_block_iff_active_rule_match_witness :
    (∀ k ∈ [({ keyword := "scam", match_type := "Contains", applies_to := "All",
               active := false } : BannedKeyword)], k.active = false)
    ∧ isContentFiltered (some [])
        (some [{ keyword := "scam", match_type := "Contains", applies_to := "All",
                 active := false }])
        "Buy now, limited time scam offer" "" "c" = false :=
  ⟨by decide,
   (classify_block_iff_active_rule_match
      [{ keyword := "scam", match_type := "Contains", applies_to := "All",
         active := false }]
      "Buy now, limited time scam offer" "" "c").2.1 (by decide)⟩

/-- C2: when every rule-set fetch fails (`none`), the composed per-item gate
of `fetchRealYouTubeVideos` falls back to the built-in minimal rule set via
`isContentSafe`: it blocks exactly the items whose lower-cased title or
description includes an active built-in `contains` keyword — in particular, it
does not allow everything unchecked — and the fetch errors are absorbed
(the gate still returns an allow/block verdict, never an error). -/
theorem classifier_fetch_failure_builtin_fallback
    (title description channelId : String) :
    (videoContentBlocked none none none title description channelId = true ↔
      ∃ k ∈ builtInBannedKeywords, k.IsActive = true ∧ k.MatchType = "contains" ∧
        (jsIncludes (jsToLower title) (jsToLower k.Keyword)
          || jsIncludes (jsToLower description) (jsToLower k.Keyword)) = true)
    ∧ videoContentBlocked none none none
        "Buy now, limited time scam offer" "" channelId = true := by
  have hfil : isContentFiltered none none title description channelId = false := rfl
  constructor
  · simp [videoContentBlocked, hfil, isContentSafe, List.any_eq_true,
      List.mem_filter, and_assoc]
  · have hfil2 : isContentFiltered none none
        "Buy now, limited time scam offer" "" channelId = false := rfl
    simp only [videoContentBlocked, hfil2, Bool.or_false]
    decide

/-! ## Retention Manager (`performAdvancedCleanup` of the news scheduler)

A stored breaking-news article, restricted to the fields the cleanup code
reads: `id`, `publishedAt`, `isPinned`, `isBreaking`. -/

structure Article where
  id : Nat
  publishedAt : Nat
  isPinned : Bool
  isBreaking : Bool
deriving DecidableEq, Repr

/-- The comparator `(a, b) => new Date(b.publishedAt) - new Date(a.publishedAt)`:
`a` sorts no later than `b` when `b` is no newer than `a`. -/
def newerFirst (a b : Article) : Prop := b.publishedAt ≤ a.publishedAt

instance : DecidableRel newerFirst := fun a b => Nat.decLe b.publishedAt a.publishedAt

instance : IsTotal Article newerFirst :=
  ⟨fun a b => Nat.le_total b.publishedAt a.publishedAt⟩

instance : IsTrans Article newerFirst :=
  ⟨fun _ _ _ hab hbc => Nat.le_trans hbc hab⟩

/-- `allArticles.sort((a, b) => new Date(b.publishedAt) - new Date(a.publishedAt))`:
a stable sort, newest first (JavaScript `Array.prototype.sort` is stable, and a
stable sort under a fixed total preorder is unique, so insertion sort embeds it
faithfully). -/
def sortNewestFirst (articles : List Article) : List Article :=
  articles.insertionSort newerFirst

/-- The preservation filter applied to count-based deletion candidates:
keep a candidate for deletion unless a preserve flag together with the
corresponding article flag excludes it. -/
def notPreserved (preservePinned preserveBreaking : Bool) (a : Article) : Bool :=
  !(preservePinned && a.isPinned) && !(preserveBreaking && a.isBreaking)

/-- The `age_only` per-article decision: preserved articles are never age
candidates; otherwise an article is a candidate iff it is older than the
cutoff. -/
def ageDeletable (preservePinned preserveBreaking : Bool) (cutoff : Nat)
    (a : Article) : Bool :=
  if preservePinned && a.isPinned then false
  else if preserveBreaking && a.isBreaking then false
  else decide (a.publishedAt < cutoff)

/-- Cumulative cleanup statistics persisted in Settings. -/
structure CleanupStats where
  totalDeleted : Nat
  lastDeletedCount : Nat
  lastCleanupDate : Option Nat
deriving DecidableEq, Repr

/-- The slice of the news Settings record that `performAdvancedCleanup`
reads. -/
structure CleanupSettings where
  cleanupMode : String
  maxArticleLimit : Nat
  maxArticleAgeHours : Nat
  preservePinnedArticles : Bool
  preserveBreakingNews : Bool
  cleanupStats : CleanupStats
deriving DecidableEq, Repr

/-- `cutoffTime = now - maxArticleAgeHours * 60 * 60 * 1000` (milliseconds). -/
def cutoffTime (now : Nat) (s : CleanupSettings) : Nat :=
  now - s.maxArticleAgeHours * 60 * 60 * 1000

/-- `oldArticles` of the combined branch of `performAdvancedCleanup`: the age
candidates, preserved articles excluded. -/
def oldArticles (now : Nat) (s : CleanupSettings)
    (allArticles : List Article) : List Article :=
  allArticles.filter
    (ageDeletable s.preservePinnedArticles s.preserveBreakingNews (cutoffTime now s))

/-- `allArticles.filter(article => !oldArticles.includes(article))` of the
combined branch. -/
def remainingArticles (now : Nat) (s : CleanupSettings)
    (allArticles : List Article) : List Article :=
  allArticles.filter (fun a => !((oldArticles now s allArticles).contains a))

/-- `excessArticles` of the combined branch: the count cutoff applied to the
remaining (non-old) articles only. -/
def excessArticles (now : Nat) (s : CleanupSettings)
    (allArticles : List Article) : List Article :=
  if (remainingArticles now s allArticles).length > s.maxArticleLimit then
    ((sortNewestFirst (remainingArticles now s allArticles)).drop s.maxArticleLimit).filter
      (notPreserved s.preservePinnedArticles s.preserveBreakingNews)
  else []

/-- The `articlesToDelete` computation of `performAdvancedCleanup`: a switch
on `cleanupMode` with cases `age_only`, `count_only` and a default (shared
with `both_count_and_age`).  The combined mode first takes the age
candidates, removes them from the corpus, and applies the count cutoff to the
remainder only. -/
def selectArticlesToDelete (now : Nat) (s : CleanupSettings)
    (allArticles : List Article) : List Article :=
  if s.cleanupMode = "age_only" then
    allArticles.filter
      (ageDeletable s.preservePinnedArticles s.preserveBreakingNews (cutoffTime now s))
  else if s.cleanupMode = "count_only" then
    if allArticles.length > s.maxArticleLimit then
      ((sortNewestFirst allArticles).drop s.maxArticleLimit).filter
        (notPreserved s.preservePinnedArticles s.preserveBreakingNews)
    else []
  else
    oldArticles now s allArticles ++ excessArticles now s allArticles

/-- Boolean check that a list of articles is ordered oldest-first. -/
def sortedOldestFirstB : List Article → Bool
  | [] => true
  | [_] => true
  | a :: b :: t => decide (a.publishedAt ≤ b.publishedAt) && sortedOldestFirstB (b :: t)

/-- Three articles, the oldest of which is pinned. -/
def cxPinnedOldest : List Article :=
  [⟨1, 300, false, false⟩, ⟨2, 200, false, false⟩, ⟨3, 100, true, false⟩]

/-- Four articles, none pinned or breaking. -/
def cxFourPlain : List Article :=
  [⟨1, 100, false, false⟩, ⟨2, 200, false, false⟩,
   ⟨3, 300, false, false⟩, ⟨4, 400, false, false⟩]

/-- The 60-article corpus of scenario C: distinct publish times, none pinned
or breaking. -/
def scenarioCArticles : List Article :=
  (List.range 60).map fun i =>
    { id := i, publishedAt := i * 1000, isPinned := false, isBreaking := false }

/-- C3 counterexample.  Against `cxPinnedOldest` (N = 3, M = 1 pinned,
L = 1 < N - M) the `count_only` plan returns a single article, not
N - L = 2, because the pinned article among the N - L oldest is filtered out
of the deletion set after slicing.  Against `cxFourPlain` (L = 1) the plan is
`[id 3, id 2, id 1]`: newest-first among candidates, not oldest-first. -/
theorem count_only_plan_claim_counterexample :
    ((selectArticlesToDelete 0 ⟨"count_only", 1, 24, true, true, ⟨0, 0, none⟩⟩
        cxPinnedOldest).length = 1
      ∧ cxPinnedOldest.length - 1 = 2)
    ∧ (selectArticlesToDelete 0 ⟨"count_only", 1, 24, true, true, ⟨0, 0, none⟩⟩
        cxFourPlain
        = [⟨3, 300, false, false⟩, ⟨2, 200, false, false⟩, ⟨1, 100, false, false⟩]
      ∧ sortedOldestFirstB
          (selectArticlesToDelete 0 ⟨"count_only", 1, 24, true, true, ⟨0, 0, none⟩⟩
            cxFourPlain) = false) := by
  decide

/-- C3 as amended: with both preserve flags set and L < N, the `count_only`
plan is exactly the non-pinned, non-breaking articles among the N - L oldest
(by publish time) — so at most N - L articles, and exactly N - L when no
pinned or breaking article lies among those N - L oldest — listed
newest-first; no pinned or breaking article is ever in the deletion set, and
every planned article is no newer than every retained article. -/
theorem count_only_plan_spec (L ageH : Nat) (st : CleanupStats) (now : Nat)
    (articles : List Article) (hL : L < articles.length) :
    (∀ a ∈ selectArticlesToDelete now ⟨"count_only", L, ageH, true, true, st⟩ articles,
        a.isPinned = false ∧ a.isBreaking = false)
    ∧ selectArticlesToDelete now ⟨"count_only", L, ageH, true, true, st⟩ articles
        = ((sortNewestFirst articles).drop L).filter (notPreserved true true)
    ∧ (∀ a ∈ (sortNewestFirst articles).drop L, ∀ b ∈ (sortNewestFirst articles).take L,
        a.publishedAt ≤ b.publishedAt)
    ∧ (selectArticlesToDelete now ⟨"count_only", L, ageH, true, true, st⟩
        articles).Pairwise newerFirst
    ∧ ((∀ a ∈ (sortNewestFirst articles).drop L, a.isPinned = false ∧ a.isBreaking = false) →
        (selectArticlesToDelete now ⟨"count_only", L, ageH, true, true, st⟩
          articles).length = articles.length - L) := by
  have hsel : selectArticlesToDelete now ⟨"count_only", L, ageH, true, true, st⟩ articles
      = ((sortNewestFirst articles).drop L).filter (notPreserved true true) := by
    simp only [selectArticlesToDelete]
    rw [if_neg (by decide), if_pos (by decide), if_pos hL]
  have hsorted : (sortNewestFirst articles).Pairwise newerFirst :=
    List.sorted_insertionSort newerFirst articles
  refine ⟨?_, hsel, ?_, ?_, ?_⟩
  · intro a ha
    rw [hsel] at ha
    have hmem := List.of_mem_filter ha
    simpa [notPreserved] using hmem
  · have hsplit : (sortNewestFirst articles).take L ++ (sortNewestFirst articles).drop L
        = sortNewestFirst articles := List.take_append_drop L _
    have hp : ((sortNewestFirst articles).take L ++ (sortNewestFirst articles).drop L).Pairwise
        newerFirst := by rw [hsplit]; exact hsorted
    rcases List.pairwise_append.mp hp with ⟨-, -, hcross⟩
    intro a ha b hb
    exact hcross b hb a ha
  · rw [hsel]
    have h1 : List.Sublist
        (((sortNewestFirst articles).drop L).filter (notPreserved true true))
        ((sortNewestFirst articles).drop L) := List.filter_sublist _
    have h2 : List.Sublist ((sortNewestFirst articles).drop L)
        (sortNewestFirst articles) := List.drop_sublist _ _
    exact hsorted.sublist (h1.trans h2)
  · intro hall
    rw [hsel]
    rw [List.filter_eq_self.mpr ?_]
    · rw [List.length_drop]
      unfold sortNewestFirst
      rw [List.length_insertionSort]
    · intro a ha
      rcases hall a ha with ⟨hp, hb⟩
      simp [notPreserved, hp, hb]

/-- Witness for `count_only_plan_spec`: scenario C, 60 articles with
`maxArticleLimit = 21`, none pinned or breaking — 39 articles are planned for
deletion. -/
theorem count_only_plan_spec_witness :
    21 < scenarioCArticles.length
    ∧ (selectArticlesToDelete 0 ⟨"count_only", 21, 24, true, true, ⟨0, 0, none⟩⟩
        scenarioCArticles).length = scenarioCArticles.length - 21 :=
  ⟨by decide,
   (count_only_plan_spec 21 24 ⟨0, 0, none⟩ 0 scenarioCArticles (by decide)).2.2.2.2
     (by decide)⟩

/-- C6: in `both_count_and_age` mode, the deletion set is the concatenation of
the age candidates and the count excess of the *remaining* articles, and for a
corpus of distinct articles it contains no duplicates; in particular an
article that is both older than the cutoff and beyond the count limit appears
exactly once (it is an age candidate, and age candidates are excluded from
the count pass). -/
theorem combined_cleanup_no_duplicate_deletions (L ageH : Nat) (pp pb : Bool)
    (st : CleanupStats) (now : Nat) (articles : List Article)
    (hnd : articles.Nodup) :
    (selectArticlesToDelete now ⟨"both_count_and_age", L, ageH, pp, pb, st⟩
      articles).Nodup
    ∧ ∀ a ∈ articles,
        ageDeletable pp pb (cutoffTime now ⟨"both_count_and_age", L, ageH, pp, pb, st⟩)
          a = true →
        (selectArticlesToDelete now ⟨"both_count_and_age", L, ageH, pp, pb, st⟩
          articles).count a = 1 := by
  have hsel : selectArticlesToDelete now ⟨"both_count_and_age", L, ageH, pp, pb, st⟩
      articles
      = oldArticles now ⟨"both_count_and_age", L, ageH, pp, pb, st⟩ articles
        ++ excessArticles now ⟨"both_count_and_age", L, ageH, pp, pb, st⟩ articles := by
    simp only [selectArticlesToDelete]
    rw [if_neg (by decide), if_neg (by decide)]
  have hold : (oldArticles now ⟨"both_count_and_age", L, ageH, pp, pb, st⟩
      articles).Nodup := hnd.filter _
  have hrem : (remainingArticles now ⟨"both_count_and_age", L, ageH, pp, pb, st⟩
      articles).Nodup := hnd.filter _
  have hex_sub : ∀ a ∈ excessArticles now ⟨"both_count_and_age", L, ageH, pp, pb, st⟩
      articles,
      a ∈ remainingArticles now ⟨"both_count_and_age", L, ageH, pp, pb, st⟩ articles := by
    intro a ha
    unfold excessArticles at ha
    split at ha
    · have h1 := List.of_mem_filter ha
      have h2 := List.mem_of_mem_filter ha
      have h3 : a ∈ sortNewestFirst (remainingArticles now
          ⟨"both_count_and_age", L, ageH, pp, pb, st⟩ articles) :=
        (List.drop_sublist _ _).subset h2
      rw [sortNewestFirst, List.mem_insertionSort] at h3
      exact h3
    · exact absurd ha (List.not_mem_nil a)
  have hsort_nodup : (sortNewestFirst (remainingArticles now
      ⟨"both_count_and_age", L, ageH, pp, pb, st⟩ articles)).Nodup := by
    rw [sortNewestFirst]
    exact ((List.perm_insertionSort newerFirst _).nodup_iff).mpr hrem
  have hex : (excessArticles now ⟨"both_count_and_age", L, ageH, pp, pb, st⟩
      articles).Nodup := by
    unfold excessArticles
    split
    · exact hsort_nodup.sublist ((List.filter_sublist _).trans (List.drop_sublist _ _))
    · exact List.nodup_nil
  have hdisj : ∀ a ∈ oldArticles now ⟨"both_count_and_age", L, ageH, pp, pb, st⟩
      articles,
      a ∉ excessArticles now ⟨"both_count_and_age", L, ageH, pp, pb, st⟩ articles := by
    intro a haold hain
    have harem := hex_sub a hain
    unfold remainingArticles at harem
    have hcond := List.of_mem_filter harem
    rw [Bool.not_eq_true'] at hcond
    have hnotmem : a ∉ oldArticles now ⟨"both_count_and_age", L, ageH, pp, pb, st⟩
        articles := by simpa using hcond
    exact hnotmem haold
  have hnodup : (selectArticlesToDelete now
      ⟨"both_count_and_age", L, ageH, pp, pb, st⟩ articles).Nodup := by
    rw [hsel]
    exact hold.append hex (List.disjoint_left.mpr hdisj)
  refine ⟨hnodup, ?_⟩
  intro a ha hage
  have hmem : a ∈ selectArticlesToDelete now
      ⟨"both_count_and_age", L, ageH, pp, pb, st⟩ articles := by
    rw [hsel]
    exact List.mem_append_left _ (List.mem_filter.mpr ⟨ha, hage⟩)
  exact List.count_eq_one_of_mem hnodup hmem

/-- A corpus with one article older than the cutoff and one beyond the count
limit (for `now = 10000000`, `maxArticleAgeHours = 1`). -/
def cxCombined : List Article :=
  [⟨1, 100, false, false⟩, ⟨2, 7000000, false, false⟩, ⟨3, 8000000, false, false⟩]

/-- Witness for `combined_cleanup_no_duplicate_deletions` on `cxCombined`. -/
theorem combined_cleanup_no_duplicate_deletions_witness :
    cxCombined.Nodup
    ∧ ((selectArticlesToDelete 10000000 ⟨"both_count_and_age", 1, 1, true, true, ⟨0, 0, none⟩⟩
          cxCombined).Nodup
        ∧ ∀ a ∈ cxCombined,
            ageDeletable true true
              (cutoffTime 10000000 ⟨"both_count_and_age", 1, 1, true, true, ⟨0, 0, none⟩⟩)
              a = true →
            (selectArticlesToDelete 10000000
              ⟨"both_count_and_age", 1, 1, true, true, ⟨0, 0, none⟩⟩
              cxCombined).count a = 1) :=
  ⟨by decide,
   combined_cleanup_no_duplicate_deletions 1 1 true true ⟨0, 0, none⟩ 10000000
     cxCombined (by decide)⟩

/-- The observable outcome of one `performAdvancedCleanup` run: the planned
deletion list, the deletions that actually succeeded, the statistics patch
written back to Settings (if any), and whether the run completed. -/
structure CleanupOutcome where
  attempted : List Article
  deleted : List Article
  statsWritten : Option CleanupStats
  completed : Bool
deriving DecidableEq, Repr

/-- `performAdvancedCleanup`: plan `articlesToDelete`, attempt each deletion
(each delete call sits in its own `try`/`catch`, so a failure — `delOk a.id =
false` — is logged and skipped), then, when anything was planned, build
`updatedStats` from `articlesToDelete.length` and write it to Settings in a
`try`/`catch` of its own (`statsWriteOk = false` models a failed write, which
is only logged).  The run completes on every path. -/
def performAdvancedCleanup (delOk : Nat → Bool) (statsWriteOk : Bool)
    (now : Nat) (s : CleanupSettings) (allArticles : List Article) :
    CleanupOutcome :=
  let articlesToDelete := selectArticlesToDelete now s allArticles
  if articlesToDelete.length > 0 then
    let updatedStats : CleanupStats :=
      { totalDeleted := s.cleanupStats.totalDeleted + articlesToDelete.length,
        lastDeletedCount := articlesToDelete.length,
        lastCleanupDate := some now }
    { attempted := articlesToDelete,
      deleted := articlesToDelete.filter (fun a => delOk a.id),
      statsWritten := if statsWriteOk then some updatedStats else none,
      completed := true }
  else
    { attempted := articlesToDelete, deleted := [],
      statsWritten := none, completed := true }

/-- Deletion succeeds only for article id 1. -/
def cxDelOk : Nat → Bool := fun i => i == 1

/-- Two articles that are both age candidates for `now = 10000000`,
`maxArticleAgeHours = 1`. -/
def cxBothOld : List Article :=
  [⟨1, 100, false, false⟩, ⟨2, 200, false, false⟩]

/-- C7 counterexample: with two planned deletions of which one fails, the run
deletes one article but the statistics written to Settings count two
(`lastDeletedCount = 2`, `totalDeleted + 2`): the statistics do not count
only the items actually deleted. -/
theorem retention_stats_count_counterexample :
    (performAdvancedCleanup cxDelOk true 10000000
        ⟨"age_only", 99, 1, true, true, ⟨0, 0, none⟩⟩ cxBothOld).deleted.length = 1
    ∧ (performAdvancedCleanup cxDelOk true 10000000
        ⟨"age_only", 99, 1, true, true, ⟨0, 0, none⟩⟩ cxBothOld).statsWritten
      = some ⟨2, 2, some 10000000⟩
    ∧ (performAdvancedCleanup cxDelOk true 10000000
        ⟨"age_only", 99, 1, true, true, ⟨0, 0, none⟩⟩ cxBothOld).statsWritten.map
          CleanupStats.lastDeletedCount
      ≠ some (performAdvancedCleanup cxDelOk true 10000000
          ⟨"age_only", 99, 1, true, true, ⟨0, 0, none⟩⟩ cxBothOld).deleted.length := by
  decide

/-- C7 as amended: when individual deletions fail the run still completes and
the failures are skipped (the deleted set is the planned set restricted to
the successful delete calls); the statistics update, when it happens, counts
the *planned* deletions (which can exceed the number actually deleted); and
the statistics write is best-effort — its failure changes neither the planned
nor the deleted set. -/
theorem retention_partial_failure_spec (delOk : Nat → Bool) (statsWriteOk : Bool)
    (now : Nat) (s : CleanupSettings) (articles : List Article) :
    (performAdvancedCleanup delOk statsWriteOk now s articles).completed = true
    ∧ (performAdvancedCleanup delOk statsWriteOk now s articles).deleted
      = (performAdvancedCleanup delOk statsWriteOk now s articles).attempted.filter
          (fun a => delOk a.id)
    ∧ (∀ st, (performAdvancedCleanup delOk statsWriteOk now s articles).statsWritten
          = some st →
        st.lastDeletedCount
          = (performAdvancedCleanup delOk statsWriteOk now s articles).attempted.length
        ∧ st.totalDeleted
          = s.cleanupStats.totalDeleted
            + (performAdvancedCleanup delOk statsWriteOk now s articles).attempted.length)
    ∧ (performAdvancedCleanup delOk false now s articles).deleted
      = (performAdvancedCleanup delOk true now s articles).deleted
    ∧ (performAdvancedCleanup delOk false now s articles).attempted
      = (performAdvancedCleanup delOk true now s articles).attempted := by
  unfold performAdvancedCleanup
  by_cases h : (selectArticlesToDelete now s articles).length > 0
  · simp only [h, if_true]
    refine ⟨by trivial, by trivial, ?_, ?_, by trivial⟩
    · intro st hst
      cases statsWriteOk with
      | false => exact absurd hst (by simp)
      | true =>
        simp only [if_true] at hst
        cases hst
        exact ⟨rfl, rfl⟩
    · simp
  · have hnil : selectArticlesToDelete now s articles = [] :=
      List.eq_nil_of_length_eq_zero (Nat.eq_zero_of_not_pos h)
    simp only [h, if_false]
    refine ⟨by trivial, ?_, ?_, by trivial, by trivial⟩
    · simp [hnil]
    · intro st hst
      exact absurd hst (by simp)

/-- Witness for `retention_partial_failure_spec` at the counterexample input:
the statistics written count both planned deletions. -/
theorem retention_partial_failure_spec_witness :
    (performAdvancedCleanup cxDelOk true 10000000
        ⟨"age_only", 99, 1, true, true, ⟨0, 0, none⟩⟩ cxBothOld).statsWritten
      = some ⟨2, 2, some 10000000⟩
    ∧ (⟨2, 2, some 10000000⟩ : CleanupStats).lastDeletedCount
      = (performAdvancedCleanup cxDelOk true 10000000
          ⟨"age_only", 99, 1, true, true, ⟨0, 0, none⟩⟩ cxBothOld).attempted.length :=
  ⟨by decide,
   ((retention_partial_failure_spec cxDelOk true 10000000
       ⟨"age_only", 99, 1, true, true, ⟨0, 0, none⟩⟩ cxBothOld).2.2.1
     ⟨2, 2, some 10000000⟩ (by decide)).1⟩

/-! ## Config Resolver: the topic fallback chain of the video scheduler and
`getNewsSettings` of the news scheduler -/

/-- A `trending-tags-videos` record as read in `performFetch`. -/
structure TrendingTag where
  tag : String
  category : String
  priority : String
  active : Bool
deriving DecidableEq, Repr

/-- A trending topic as used by the video scheduler.  `Source` is absent
(`none`) on the built-in entries and set on converted/generated ones. -/
structure Topic where
  Title : String
  Category : String
  Priority : Nat
  IsActive : Bool
  Source : Option String
deriving DecidableEq, Repr

/-- Conversion of a trending tag to a topic (`trendingTags.map(...)` in
`performFetch`): `High` priority becomes 1, `Medium` 2, anything else 3. -/
def tagToTopic (t : TrendingTag) : Topic :=
  { Title := t.tag, Category := t.category,
    Priority := if t.priority == "High" then 1 else if t.priority == "Medium" then 2 else 3,
    IsActive := t.active, Source := some "trending-tags-video" }

/-- A `trusted-channels-videos` record as read by
`generateTopicsFromTrustedChannels`; `channel_name` and `category` may be
absent. -/
structure TrustedChannelRec where
  channel_name : Option String
  category : Option String
  trust_level : String
deriving DecidableEq, Repr

/-- JavaScript `value || fallback` on a possibly absent string field: absent
and empty strings are falsy. -/
def jsOrString (v : Option String) (fallback : String) : String :=
  match v with
  | none => fallback
  | some s => if s == "" then fallback else s

/-- `generateTopicsFromTrustedChannels`: take at most 3 channels and build a
topic from each, with name-pattern category overrides. -/
def generateTopicsFromTrustedChannels (trustedChannels : List TrustedChannelRec) :
    List Topic :=
  (trustedChannels.take 3).map fun channel =>
    let channelName := jsOrString channel.channel_name "Unknown"
    let channelCategory := jsOrString channel.category "Entertainment"
    let topicCategory :=
      if jsIncludes (jsToLower channelName) "travel"
          || jsIncludes (jsToLower channelName) "nomad" then "Travel"
      else if jsIncludes (jsToLower channelName) "food"
          || jsIncludes (jsToLower channelName) "cooking" then "Food"
      else channelCategory
    { Title := channelName ++ " Content", Category := topicCategory,
      Priority := if channel.trust_level == "High" then 1 else 2,
      IsActive := true, Source := some "trusted_channel" }

/-- The video scheduler's built-in trending topics (`builtInTopics`). -/
def builtInTopics : List Topic :=
  [ ⟨"Thailand Travel", "Travel", 1, true, none⟩,
    ⟨"Pattaya Tourism", "Travel", 1, true, none⟩,
    ⟨"Bangkok Street Food", "Food", 2, true, none⟩,
    ⟨"Thai Culture", "Culture", 2, true, none⟩,
    ⟨"Island Hopping Thailand", "Adventure", 2, true, none⟩,
    ⟨"Thai Temples", "Culture", 3, true, none⟩,
    ⟨"Muay Thai Training", "Sports", 3, true, none⟩,
    ⟨"Thai Cooking Classes", "Food", 3, true, none⟩,
    ⟨"Scuba Diving Thailand", "Adventure", 2, true, none⟩,
    ⟨"Bangkok Nightlife", "Entertainment", 3, true, none⟩ ]

/-- `getEmergencyTopics()`: the hardcoded last-resort list. -/
def getEmergencyTopics : List Topic :=
  [ ⟨"Thailand", "Travel", 1, true, some "emergency"⟩,
    ⟨"Pattaya", "Travel", 1, true, some "emergency"⟩,
    ⟨"Bangkok", "Travel", 1, true, some "emergency"⟩,
    ⟨"Thai Food", "Food", 2, true, some "emergency"⟩,
    ⟨"Tourism", "Travel", 2, true, some "emergency"⟩ ]

/-- The `activeTopics` resolution of `performFetch` (steps 1 and its
fallbacks): try the trending-tags fetch (`none` = request failed); if that
yields nothing, try the trusted-channels fetch and generate topics; if still
nothing, use the built-in topics filtered on `IsActive`; if even that is
empty, the emergency list. -/
def resolveActiveTopics (trendingFetch : Option (List TrendingTag))
    (trustedFetch : Option (List TrustedChannelRec)) : List Topic :=
  let fromTrending : List Topic :=
    match trendingFetch with
    | some tags => tags.map tagToTopic
    | none => []
  if !fromTrending.isEmpty then fromTrending
  else
    let fromTrusted : List Topic :=
      match trustedFetch with
      | some chans => generateTopicsFromTrustedChannels chans
      | none => []
    if !fromTrusted.isEmpty then fromTrusted
    else
      let builtin := builtInTopics.filter (fun t => t.IsActive)
      if !builtin.isEmpty then builtin
      else getEmergencyTopics

/-- The news Settings object, restricted to the fields the embedded news
scheduler functions read. -/
structure NewsSettings where
  fetchIntervalMinutes : Nat
  moderationKeywords : List String
  autoModerationEnabled : Bool
  maxArticlesPerFetch : Nat
  maxArticleLimit : Nat
  maxArticleAgeHours : Nat
  cleanupMode : String
  cleanupFrequencyMinutes : Nat
  preservePinnedArticles : Bool
  preserveBreakingNews : Bool
  cleanupStats : CleanupStats
  enableAlgoliaSync : Bool
deriving DecidableEq, Repr

/-- `builtInNewsSettings` of the news scheduler constructor. -/
def builtInNewsSettings : NewsSettings :=
  { fetchIntervalMinutes := 30,
    moderationKeywords := ["spam", "fake", "clickbait", "scam", "adult", "explicit"],
    autoModerationEnabled := true,
    maxArticlesPerFetch := 20,
    maxArticleLimit := 21,
    maxArticleAgeHours := 24,
    cleanupMode := "both_count_and_age",
    cleanupFrequencyMinutes := 60,
    preservePinnedArticles := true,
    preserveBreakingNews := true,
    cleanupStats := ⟨0, 0, none⟩,
    enableAlgoliaSync := false }

/-- A partial settings object from the store: each field may be absent. -/
structure PartialNewsSettings where
  fetchIntervalMinutes : Option Nat
  moderationKeywords : Option (List String)
  autoModerationEnabled : Option Bool
  maxArticlesPerFetch : Option Nat
  maxArticleLimit : Option Nat
  maxArticleAgeHours : Option Nat
  cleanupMode : Option String
  cleanupFrequencyMinutes : Option Nat
  preservePinnedArticles : Option Bool
  preserveBreakingNews : Option Bool
  cleanupStats : Option CleanupStats
  enableAlgoliaSync : Option Bool
deriving DecidableEq, Repr

/-- `Object.keys(dbSettings).length > 0` is false: every field is absent. -/
def PartialNewsSettings.isEmptyObject (p : PartialNewsSettings) : Bool :=
  p.fetchIntervalMinutes.isNone && p.moderationKeywords.isNone
    && p.autoModerationEnabled.isNone && p.maxArticlesPerFetch.isNone
    && p.maxArticleLimit.isNone && p.maxArticleAgeHours.isNone
    && p.cleanupMode.isNone && p.cleanupFrequencyMinutes.isNone
    && p.preservePinnedArticles.isNone && p.preserveBreakingNews.isNone
    && p.cleanupStats.isNone && p.enableAlgoliaSync.isNone

/-- The spread `{ ...this.builtInNewsSettings, ...dbSettings }`: a field
present in the store response wins, an absent field keeps the built-in
value. -/
def mergeSettings (b : NewsSettings) (p : PartialNewsSettings) : NewsSettings :=
  { fetchIntervalMinutes := p.fetchIntervalMinutes.getD b.fetchIntervalMinutes,
    moderationKeywords := p.moderationKeywords.getD b.moderationKeywords,
    autoModerationEnabled := p.autoModerationEnabled.getD b.autoModerationEnabled,
    maxArticlesPerFetch := p.maxArticlesPerFetch.getD b.maxArticlesPerFetch,
    maxArticleLimit := p.maxArticleLimit.getD b.maxArticleLimit,
    maxArticleAgeHours := p.maxArticleAgeHours.getD b.maxArticleAgeHours,
    cleanupMode := p.cleanupMode.getD b.cleanupMode,
    cleanupFrequencyMinutes := p.cleanupFrequencyMinutes.getD b.cleanupFrequencyMinutes,
    preservePinnedArticles := p.preservePinnedArticles.getD b.preservePinnedArticles,
    preserveBreakingNews := p.preserveBreakingNews.getD b.preserveBreakingNews,
    cleanupStats := p.cleanupStats.getD b.cleanupStats,
    enableAlgoliaSync := p.enableAlgoliaSync.getD b.enableAlgoliaSync }

/-- `getNewsSettings()`: `none` models a failed request (caught), `some none`
a response with no settings record, `some (some p)` a settings object; an
empty object also falls back to the built-in settings, otherwise the store's
fields are merged over the built-in defaults. -/
def getNewsSettings (fetch : Option (Option PartialNewsSettings)) : NewsSettings :=
  match fetch with
  | none => builtInNewsSettings
  | some none => builtInNewsSettings
  | some (some db) =>
    if db.isEmptyObject then builtInNewsSettings
    else mergeSettings builtInNewsSettings db

/-- An example partial settings object with one present field. -/
def cxPartialSettings : PartialNewsSettings :=
  { fetchIntervalMinutes := some 45, moderationKeywords := none,
    autoModerationEnabled := none, maxArticlesPerFetch := none,
    maxArticleLimit := none, maxArticleAgeHours := none, cleanupMode := none,
    cleanupFrequencyMinutes := none, preservePinnedArticles := none,
    preserveBreakingNews := none, cleanupStats := none, enableAlgoliaSync := none }

/-- C4: the topic chain returns the first provider's non-empty successful
result — a non-empty trending fetch wins outright; with a failed or empty
trending fetch a non-empty trusted-channel fetch wins; with both failed or
empty the built-in (non-empty) active topic list is returned — and
`getNewsSettings` returns the built-in defaults (with
`fetchIntervalMinutes = 30`) when the settings fetch fails or finds nothing,
merging store fields over the defaults per-field otherwise.  Every resolver
is a total function: no provider failure surfaces as an error. -/
theorem config_resolution_first_nonempty_or_default :
    (∀ (t : TrendingTag) (ts : List TrendingTag)
        (trustedFetch : Option (List TrustedChannelRec)),
        resolveActiveTopics (some (t :: ts)) trustedFetch = (t :: ts).map tagToTopic)
    ∧ (∀ (c : TrustedChannelRec) (cs : List TrustedChannelRec),
        resolveActiveTopics none (some (c :: cs))
          = generateTopicsFromTrustedChannels (c :: cs)
        ∧ resolveActiveTopics (some []) (some (c :: cs))
          = generateTopicsFromTrustedChannels (c :: cs))
    ∧ resolveActiveTopics none none = builtInTopics.filter (fun t => t.IsActive)
    ∧ resolveActiveTopics (some []) (some [])
      = builtInTopics.filter (fun t => t.IsActive)
    ∧ (builtInTopics.filter (fun t => t.IsActive)).length = 10
    ∧ getNewsSettings none = builtInNewsSettings
    ∧ getNewsSettings (some none) = builtInNewsSettings
    ∧ builtInNewsSettings.fetchIntervalMinutes = 30
    ∧ (∀ p : PartialNewsSettings, p.isEmptyObject = false →
        (getNewsSettings (some (some p))).fetchIntervalMinutes
          = p.fetchIntervalMinutes.getD builtInNewsSettings.fetchIntervalMinutes
        ∧ (getNewsSettings (some (some p))).maxArticleLimit
          = p.maxArticleLimit.getD builtInNewsSettings.maxArticleLimit) := by
  refine ⟨?_, ?_, by decide, by decide, by decide, rfl, rfl, rfl, ?_⟩
  · intro t ts trustedFetch
    simp [resolveActiveTopics]
  · intro c cs
    constructor <;> simp [resolveActiveTopics, generateTopicsFromTrustedChannels]
  · intro p hp
    simp [getNewsSettings, hp, mergeSettings]

/-- Witness for `config_resolution_first_nonempty_or_default`: a store
response carrying only `fetchIntervalMinutes = 45` overrides that field and
keeps the built-in `maxArticleLimit`. -/
theorem config_resolution_first_nonempty_or_default_witness :
    cxPartialSettings.isEmptyObject = false
    ∧ (getNewsSettings (some (some cxPartialSettings))).fetchIntervalMinutes
        = cxPartialSettings.fetchIntervalMinutes.getD
            builtInNewsSettings.fetchIntervalMinutes
    ∧ (getNewsSettings (some (some cxPartialSettings))).maxArticleLimit
        = cxPartialSettings.maxArticleLimit.getD builtInNewsSettings.maxArticleLimit :=
  ⟨by decide,
   (config_resolution_first_nonempty_or_default.2.2.2.2.2.2.2.2
      cxPartialSettings (by decide)).1,
   (config_resolution_first_nonempty_or_default.2.2.2.2.2.2.2.2
      cxPartialSettings (by decide)).2⟩

/-! ## Trust/Approval Engine (`determineApprovalStatus`, video scheduler) -/

/-- A `trusted-channels-videos` record as read by `determineApprovalStatus`. -/
structure TrustRecord where
  channel_id : String
  active : Bool
  verification_status : String
  auto_approve : Bool
deriving DecidableEq, Repr

/-- `determineApprovalStatus(channelId)`: the request filters the store on
`channel_id` and `active`; the code then answers `Approved` iff the filtered
list is non-empty and its *first* record has
`verification_status === 'Verified'` and `auto_approve`; in every other case,
including a failed lookup (`none`), `Pending Review`. -/
def determineApprovalStatus (fetch : Option (List TrustRecord))
    (channelId : String) : String :=
  match fetch with
  | none => "Pending Review"
  | some recs =>
    match recs.filter (fun r => r.channel_id == channelId && r.active) with
    | [] => "Pending Review"
    | r :: _ =>
      if r.verification_status == "Verified" && r.auto_approve then "Approved"
      else "Pending Review"

/-- Two active trust records for the same channel: the first is verified but
not auto-approve, the second is verified and auto-approve. -/
def cxTrustDup : List TrustRecord :=
  [⟨"ch1", true, "Verified", false⟩, ⟨"ch1", true, "Verified", true⟩]

/-- C5 counterexample: a matching trust record with status `Verified` and the
auto-approve flag set exists (`cxTrustDup[1]`), yet the decision is
`Pending Review`, because the code consults only the first matching
record. -/
theorem approval_exists_record_counterexample :
    determineApprovalStatus (some cxTrustDup) "ch1" = "Pending Review"
    ∧ ∃ r ∈ cxTrustDup, r.channel_id = "ch1" ∧ r.active = true
        ∧ r.verification_status = "Verified" ∧ r.auto_approve = true := by
  decide

/-- C5 as amended: the decision is `Approved` iff the *first* matching active
trust record has verification status `Verified` and the auto-approve flag
set; a failed lookup, an unknown channel, or any other first record yields
`Pending Review`, and no other outcome exists.  Scenario D holds. -/
theorem approval_first_matching_record_spec (recs : List TrustRecord)
    (channelId : String) :
    determineApprovalStatus none channelId = "Pending Review"
    ∧ (determineApprovalStatus (some recs) channelId = "Approved" ↔
        ∃ r, (recs.filter (fun r => r.channel_id == channelId && r.active)).head?
            = some r
          ∧ r.verification_status = "Verified" ∧ r.auto_approve = true)
    ∧ (determineApprovalStatus (some recs) channelId = "Approved"
        ∨ determineApprovalStatus (some recs) channelId = "Pending Review")
    ∧ ((∀ r ∈ recs, ¬(r.channel_id = channelId ∧ r.active = true)) →
        determineApprovalStatus (some recs) channelId = "Pending Review")
    ∧ determineApprovalStatus (some [⟨"chD", true, "Verified", true⟩]) "chD"
      = "Approved"
    ∧ determineApprovalStatus (some [⟨"chD", true, "Verified", false⟩]) "chD"
      = "Pending Review"
    ∧ determineApprovalStatus (some [⟨"chD", true, "Verified", true⟩]) "unknown"
      = "Pending Review" := by
  refine ⟨rfl, ?_, ?_, ?_, by decide, by decide, by decide⟩
  · cases hfilter : recs.filter (fun r => r.channel_id == channelId && r.active) with
    | nil => simp [determineApprovalStatus, hfilter]
    | cons r rest =>
      by_cases hc : (r.verification_status == "Verified" && r.auto_approve) = true
      · rw [Bool.and_eq_true, beq_iff_eq] at hc
        simp [determineApprovalStatus, hfilter, hc.1, hc.2]
      · rw [Bool.and_eq_true] at hc
        simp only [determineApprovalStatus, hfilter, List.head?_cons,
          Option.some.injEq]
        rw [if_neg (by rw [Bool.and_eq_true]; exact hc)]
        constructor
        · intro habs
          exact absurd habs (by decide)
        · rintro ⟨r', hr', hv, ha⟩
          subst hr'
          exact (hc ⟨by rw [beq_iff_eq]; exact hv, ha⟩).elim
  · cases hfilter : recs.filter (fun r => r.channel_id == channelId && r.active) with
    | nil => right; simp [determineApprovalStatus, hfilter]
    | cons r rest =>
      by_cases hc : (r.verification_status == "Verified" && r.auto_approve) = true
      · left; simp [determineApprovalStatus, hfilter, hc]
      · right; simp [determineApprovalStatus, hfilter, hc]
  · intro hall
    have hnil : recs.filter (fun r => r.channel_id == channelId && r.active) = [] := by
      rw [List.filter_eq_nil_iff]
      intro r hr
      have hne := hall r hr
      simp only [Bool.and_eq_true, beq_iff_eq, not_and]
      intro h1 h2
      exact hne ⟨h1, h2⟩
    simp [determineApprovalStatus, hnil]

/-- Witness for `approval_first_matching_record_spec`: a store with no record
for the requested channel yields `Pending Review`. -/
theorem approval_first_matching_record_spec_witness :
    (∀ r ∈ [(⟨"other", true, "Verified", true⟩ : TrustRecord)],
        ¬(r.channel_id = "ch1" ∧ r.active = true))
    ∧ determineApprovalStatus (some [⟨"other", true, "Verified", true⟩]) "ch1"
      = "Pending Review" :=
  ⟨by decide,
   (approval_first_matching_record_spec [⟨"other", true, "Verified", true⟩]
      "ch1").2.2.2.1 (by decide)⟩

/-! ## Ingestion Scheduler: adaptive interval and re-entrancy discipline -/

/-- The interval computation of `scheduleNextFetch` (video scheduler), in
milliseconds.  `rand5` models `Math.floor(Math.random() * 5)`, a value in
`{0, …, 4}`, so the trending branch is
`Math.floor(Math.random() * 5 + 5) * 60 * 1000 = (rand5 + 5) * 60 * 1000`.
The daytime branch fires for `currentHour >= 6 && currentHour <= 23`, the
nighttime branch otherwise. -/
def scheduleNextFetchInterval (hasTrendingTags : Bool) (currentHour rand5 : Nat) :
    Nat :=
  if hasTrendingTags then (rand5 + 5) * 60 * 1000
  else if 6 ≤ currentHour ∧ currentHour ≤ 23 then 30 * 60 * 1000
  else 2 * 60 * 60 * 1000

/-- C8: evaluation of the interval computation.  With no trending tag and
`currentHour = 23` — which covers every local time from 23:00 to 23:59, in
particular 23:30, nighttime according to the scheduler's own startup banner
(`Nighttime (23:01-05:59): Every 2 hours`) — the code takes the daytime
branch and returns 30 minutes, not 2 hours.  The other branches behave as
documented: a trending tag yields `(5 + rand5)` minutes in `[5, 10)` for
`rand5 < 5`, and hours 0–5 yield 2 hours. -/
theorem video_interval_hour23_daytime_branch :
    (∀ rand5 : Nat, scheduleNextFetchInterval false 23 rand5 = 30 * 60 * 1000)
    ∧ (30 * 60 * 1000 : Nat) ≠ 2 * 60 * 60 * 1000
    ∧ (∀ currentHour rand5 : Nat, rand5 < 5 →
        5 * 60 * 1000 ≤ scheduleNextFetchInterval true currentHour rand5
        ∧ scheduleNextFetchInterval true currentHour rand5 < 10 * 60 * 1000)
    ∧ (∀ rand5 : Nat, scheduleNextFetchInterval false 5 rand5 = 2 * 60 * 60 * 1000)
    ∧ (∀ rand5 : Nat, scheduleNextFetchInterval false 6 rand5 = 30 * 60 * 1000) := by
  refine ⟨fun _ => rfl, by decide, ?_, fun _ => rfl, fun _ => rfl⟩
  intro currentHour rand5 h
  simp only [scheduleNextFetchInterval, if_pos rfl, if_true]
  omega

/-- Witness for `video_interval_hour23_daytime_branch`: the trending branch
at `rand5 = 3` gives 8 minutes, inside `[5, 10)` minutes. -/
theorem video_interval_hour23_daytime_branch_witness :
    (3 : Nat) < 5
    ∧ (5 * 60 * 1000 ≤ scheduleNextFetchInterval true 12 3
        ∧ scheduleNextFetchInterval true 12 3 < 10 * 60 * 1000) :=
  ⟨by decide, video_interval_hour23_daytime_branch.2.2.1 12 3 (by decide)⟩

/-- The news scheduler's cycle state: the `isRunning` re-entrancy flag and
the number of fetch cycles currently executing. -/
structure NewsSchedState where
  isRunning : Bool
  activeCycles : Nat
deriving DecidableEq, Repr

/-- Events of the news scheduler loop: a timer trigger invoking `fetchNews`,
and the completion of the running cycle through the `try` path
(`finishSuccess`) or the `catch` path (`finishFailure`); both run the
`finally` block. -/
inductive NewsSchedEvent where
  | trigger
  | finishSuccess
  | finishFailure
deriving DecidableEq, Repr

/-- `fetchNews`'s control flow as a step function: a trigger is dropped when
`isRunning` is set, otherwise it sets the flag and starts a cycle; a cycle
finishing — on success or on failure — runs the `finally` block, clearing the
flag. -/
def newsSchedStep (s : NewsSchedState) : NewsSchedEvent → NewsSchedState
  | .trigger =>
    if s.isRunning then s
    else { isRunning := true, activeCycles := s.activeCycles + 1 }
  | .finishSuccess =>
    if s.activeCycles == 0 then s
    else { isRunning := false, activeCycles := s.activeCycles - 1 }
  | .finishFailure =>
    if s.activeCycles == 0 then s
    else { isRunning := false, activeCycles := s.activeCycles - 1 }

/-- Initial state: flag clear, no cycle running. -/
def newsSchedInit : NewsSchedState := ⟨false, 0⟩

/-- The state after a sequence of scheduler events. -/
def newsSchedRun (events : List NewsSchedEvent) : NewsSchedState :=
  events.foldl newsSchedStep newsSchedInit

/-- The invariant of the news scheduler loop: at most one cycle runs, and the
flag is set exactly while one does. -/
def NewsInv (s : NewsSchedState) : Prop :=
  s.activeCycles ≤ 1 ∧ (s.isRunning = true ↔ s.activeCycles = 1)

lemma newsSchedStep_preserves (s : NewsSchedState) (e : NewsSchedEvent)
    (h : NewsInv s) : NewsInv (newsSchedStep s e) := by
  rcases h with ⟨h1, h2⟩
  cases e with
  | trigger =>
    by_cases hr : s.isRunning = true
    · simpa [newsSchedStep, hr] using ⟨h1, h2⟩
    · have hc : s.activeCycles = 0 := by
        rcases Nat.lt_or_ge s.activeCycles 1 with h | h
        · omega
        · exact absurd (h2.mpr (by omega)) hr
      simp [newsSchedStep, hr, NewsInv, hc]
  | finishSuccess =>
    by_cases hc : s.activeCycles = 0
    · simpa [newsSchedStep, hc] using ⟨h1, h2⟩
    · simp only [newsSchedStep, beq_iff_eq, if_neg hc]
      refine ⟨?_, ?_⟩
      · show s.activeCycles - 1 ≤ 1
        omega
      · show (false = true ↔ s.activeCycles - 1 = 1)
        constructor
        · intro h; exact absurd h (by simp)
        · intro h; exact absurd h (by omega)
  | finishFailure =>
    by_cases hc : s.activeCycles = 0
    · simpa [newsSchedStep, hc] using ⟨h1, h2⟩
    · simp only [newsSchedStep, beq_iff_eq, if_neg hc]
      refine ⟨?_, ?_⟩
      · show s.activeCycles - 1 ≤ 1
        omega
      · show (false = true ↔ s.activeCycles - 1 = 1)
        constructor
        · intro h; exact absurd h (by simp)
        · intro h; exact absurd h (by omega)

lemma newsSchedRun_inv (events : List NewsSchedEvent) : NewsInv (newsSchedRun events) := by
  have hgen : ∀ (es : List NewsSchedEvent) (s : NewsSchedState), NewsInv s →
      NewsInv (es.foldl newsSchedStep s) := by
    intro es
    induction es with
    | nil => intro s h; exact h
    | cons e es ih =>
      intro s h
      exact ih _ (newsSchedStep_preserves s e h)
  exact hgen events newsSchedInit (by constructor <;> simp [newsSchedInit])

/-- The video scheduler's cycle state: whether a `setTimeout` for the next
fetch is pending, and the number of fetch cycles currently executing. -/
structure VideoSchedState where
  pendingTimer : Bool
  activeCycles : Nat
deriving DecidableEq, Repr

/-- Events of the video scheduler loop: the pending timer firing, and a cycle
completing (after which `scheduleNextFetch` arms the next timer). -/
inductive VideoSchedEvent where
  | timerFire
  | cycleEnd
deriving DecidableEq, Repr

/-- Entry into `performFetch` (video scheduler): the function contains no
cycle-in-progress check — an invocation unconditionally starts a cycle
(`this.cycleCount++` and the fetch body run regardless of any running
cycle). -/
def videoPerformFetchEntry (s : VideoSchedState) : VideoSchedState :=
  { s with activeCycles := s.activeCycles + 1 }

/-- The video scheduler's own timer discipline: a timer fires only while
pending, consuming the timer and invoking `performFetch`; a finishing cycle
calls `scheduleNextFetch`, arming the next timer. -/
def videoSchedStep (s : VideoSchedState) : VideoSchedEvent → VideoSchedState
  | .timerFire =>
    if s.pendingTimer then videoPerformFetchEntry { s with pendingTimer := false }
    else s
  | .cycleEnd =>
    if s.activeCycles == 0 then s
    else { pendingTimer := true, activeCycles := s.activeCycles - 1 }

/-- Initial state of `start()`: the initial `performFetch` cycle runs, no
timer armed yet (`scheduleNextFetch` runs only after it finishes). -/
def videoSchedInit : VideoSchedState := ⟨false, 1⟩

/-- The state after a sequence of video scheduler events. -/
def videoSchedRun (events : List VideoSchedEvent) : VideoSchedState :=
  events.foldl videoSchedStep videoSchedInit

/-- The invariant of the video scheduler loop: one unit of control — either
the pending timer or a running cycle — exists at a time. -/
def VideoInv (s : VideoSchedState) : Prop :=
  s.activeCycles + (if s.pendingTimer then 1 else 0) ≤ 1

lemma videoSchedStep_preserves (s : VideoSchedState) (e : VideoSchedEvent)
    (h : VideoInv s) : VideoInv (videoSchedStep s e) := by
  unfold VideoInv at h ⊢
  cases e with
  | timerFire =>
    by_cases hp : s.pendingTimer = true
    · simp only [videoSchedStep, hp, if_true, videoPerformFetchEntry]
      show s.activeCycles + 1 + (if false then 1 else 0) ≤ 1
      rw [if_neg Bool.false_ne_true]
      rw [hp] at h
      rw [if_pos rfl] at h
      omega
    · simpa [videoSchedStep, hp] using h
  | cycleEnd =>
    by_cases hc : s.activeCycles = 0
    · simpa [videoSchedStep, hc] using h
    · simp only [videoSchedStep, beq_iff_eq, if_neg hc]
      show s.activeCycles - 1 + (if true then 1 else 0) ≤ 1
      rw [if_pos rfl]
      rcases Bool.eq_false_or_eq_true s.pendingTimer with hp | hp <;> rw [hp] at h
      · rw [if_pos rfl] at h
        omega
      · rw [if_neg Bool.false_ne_true] at h
        omega

lemma videoSchedRun_inv (events : List VideoSchedEvent) :
    VideoInv (videoSchedRun events) := by
  have hgen : ∀ (es : List VideoSchedEvent) (s : VideoSchedState), VideoInv s →
      VideoInv (es.foldl videoSchedStep s) := by
    intro es
    induction es with
    | nil => intro s h; exact h
    | cons e es ih =>
      intro s h
      exact ih _ (videoSchedStep_preserves s e h)
  exact hgen events videoSchedInit (by unfold VideoInv videoSchedInit; simp)

/-- C9 counterexample: the video scheduler's `performFetch` has no
cycle-in-progress flag — invoking it while a cycle is already running (state
`⟨false, 1⟩`) is not dropped: it starts a second concurrent cycle instead of
leaving the state unchanged. -/
theorem video_trigger_not_dropped_counterexample :
    videoPerformFetchEntry ⟨false, 1⟩ = ⟨false, 2⟩
    ∧ videoPerformFetchEntry ⟨false, 1⟩ ≠ ⟨false, 1⟩
    ∧ (videoPerformFetchEntry ⟨false, 1⟩).activeCycles = 2 := by
  decide

/-- C9 as amended: the news scheduler drops a trigger that fires while a
cycle is in progress (its `isRunning` flag is set before the cycle starts and
cleared by the `finally` block on success and on failure), so at most one
news cycle ever runs; the video scheduler has no per-cycle flag, but under
its own timer discipline — the next trigger is armed only after the current
cycle completes — at most one video cycle runs at a time. -/
theorem reentrancy_guard_spec :
    (∀ n : Nat, newsSchedStep ⟨true, n⟩ .trigger = ⟨true, n⟩)
    ∧ (∀ n : Nat, newsSchedStep ⟨false, n⟩ .trigger = ⟨true, n + 1⟩)
    ∧ (∀ n : Nat, (newsSchedStep ⟨true, n + 1⟩ .finishSuccess).isRunning = false
        ∧ (newsSchedStep ⟨true, n + 1⟩ .finishFailure).isRunning = false)
    ∧ (∀ events : List NewsSchedEvent, (newsSchedRun events).activeCycles ≤ 1)
    ∧ (∀ events : List VideoSchedEvent, (videoSchedRun events).activeCycles ≤ 1) := by
  refine ⟨fun n => by simp [newsSchedStep], fun n => by simp [newsSchedStep],
    fun n => ⟨by simp [newsSchedStep], by simp [newsSchedStep]⟩, ?_, ?_⟩
  · intro events
    exact (newsSchedRun_inv events).1
  · intro events
    have h := videoSchedRun_inv events
    unfold VideoInv at h
    omega

/-! ## Breaking-news detection and the persisted record (`fetchNews`) -/

/-- The breaking-news keyword list of `fetchNews`. -/
def breakingKeywords : List String :=
  ["breaking", "urgent", "alert", "emergency", "developing", "just in"]

/-- `isBreaking` of `fetchNews`: some keyword occurs in the lower-cased title
or the lower-cased cleaned content. -/
def computeIsBreaking (title cleanContent : String) : Bool :=
  breakingKeywords.any fun keyword =>
    jsIncludes (jsToLower title) keyword || jsIncludes (jsToLower cleanContent) keyword

/-- The persisted `breakingNewsData` record of `fetchNews`, restricted to the
fields relevant here, with the exact property names the source writes. -/
structure BreakingNewsData where
  Title : String
  Summary : String
  Severity : String
  IsBreaking : Bool
  isPinned : Bool
deriving DecidableEq, Repr

/-- Construction of the persisted record in `fetchNews`:
`Severity: isBreaking ? 'high' : 'medium'`, `IsBreaking: isBreaking`,
`isPinned: false`. -/
def buildBreakingNewsData (title cleanContent : String) : BreakingNewsData :=
  { Title := title, Summary := cleanContent,
    Severity := if computeIsBreaking title cleanContent then "high" else "medium",
    IsBreaking := computeIsBreaking title cleanContent,
    isPinned := false }

/-- A JSON value, for modelling JavaScript property access on stored records
across the REST boundary. -/
inductive JsonVal where
  | str (s : String)
  | bool (b : Bool)
deriving DecidableEq, Repr

/-- The JSON object persisted for a breaking-news item: the property names
are exactly the keys of the `breakingNewsData` literal in `fetchNews`
(Strapi serves attributes under their declared names — the same list
responses are read as `article.Title`, with this casing, in
`cleanupOldArticles`). -/
def BreakingNewsData.toJson (r : BreakingNewsData) : List (String × JsonVal) :=
  [("Title", .str r.Title), ("Summary", .str r.Summary),
   ("Severity", .str r.Severity), ("IsBreaking", .bool r.IsBreaking),
   ("isPinned", .bool r.isPinned)]

/-- JavaScript truthiness of `obj.key` on a record that may lack `key`: an
absent property is `undefined`, which is falsy. -/
def jsGetBoolField (o : List (String × JsonVal)) (key : String) : Bool :=
  match o.lookup key with
  | some (.bool b) => b
  | _ => false

/-- The property the retention filter reads in
`settings.preserveBreakingNews && article.isBreaking`
(`performAdvancedCleanup`): note the lower-case `isBreaking`. -/
def cleanupReadsIsBreaking (o : List (String × JsonVal)) : Bool :=
  jsGetBoolField o "isBreaking"

/-- C10: a persisted news item has `IsBreaking = true` and
`Severity = "high"` exactly when its lower-cased title or cleaned content
contains a breaking keyword, and `IsBreaking = false` / `Severity = "medium"`
otherwise.  However, on every record the news scheduler persists — breaking
or not — the retention filter's `article.isBreaking` read is `false`,
because the record's property is named `IsBreaking`: the
`preserveBreakingNews` exemption never keys on the persisted flag. -/
theorem breaking_flag_iff_keywords (title cleanContent : String) :
    ((buildBreakingNewsData title cleanContent).IsBreaking = true ↔
      ∃ k ∈ breakingKeywords,
        (jsIncludes (jsToLower title) k || jsIncludes (jsToLower cleanContent) k)
          = true)
    ∧ (buildBreakingNewsData title cleanContent).Severity
      = (if (buildBreakingNewsData title cleanContent).IsBreaking then "high"
         else "medium")
    ∧ cleanupReadsIsBreaking (buildBreakingNewsData title cleanContent).toJson
      = false
    ∧ (buildBreakingNewsData "Breaking: storm hits Pattaya" "").IsBreaking = true
    ∧ (buildBreakingNewsData "Breaking: storm hits Pattaya" "").Severity = "high"
    ∧ (buildBreakingNewsData "Quiet day at the beach" "").IsBreaking = false
    ∧ (buildBreakingNewsData "Quiet day at the beach" "").Severity = "medium" := by
  refine ⟨?_, rfl, rfl, by decide, by decide, by decide, by decide⟩
  simp [buildBreakingNewsData, computeIsBreaking, List.any_eq_true]
